import Mathlib

/-!
Shallow embedding of the OID4VP Holder pipeline from `src/oid4vp/holder.rs`.

The holder receives an authorization request URL, validates it, resolves the
presentation definition of the verifier, filters its credentials against the
definition, and packages the matches into a permission request. Network
effects (request validation over HTTP, presentation-definition fetch) are
modelled by an explicit `World` value holding the outcome the environment
would produce, and side effects relevant to the claims are recorded in an
explicit event trace.
-/

namespace MobileSdk

/-- A request-initiation URL (modelled as its text). -/
abbrev Url := String

/-- An identifier of a stored credential in the VDC collection (a Uuid in the source). -/
abbrev StoreId := String

/-- Modelled from the spec: a `ParsedCredential` (its defining module is not under
src; only its uses in `holder.rs` are). Per the data model it is a normalized
in-memory credential capable of self-testing against a presentation definition;
for matching, what matters is its claim format and its set of claims. -/
structure ParsedCredential where
  format : String
  claims : List String
deriving Repr, DecidableEq

/-- Modelled from the spec: one input descriptor of a presentation definition, the
named requirement unit with format constraints and required field-path constraints. -/
structure InputDescriptor where
  id : String
  formats : List String
  fields : List String
deriving Repr, DecidableEq

/-- Modelled from the spec: a presentation definition is a list of input descriptors.
(The concrete type comes from the external `openid4vp` crate.) -/
structure PresentationDefinition where
  input_descriptors : List InputDescriptor
deriving Repr, DecidableEq

/-- The response mode of an authorization request, as matched in
`Holder::authorization_request` (`DirectPost`, `DirectPostJwt`, `Unsupported(mode)`). -/
inductive ResponseMode where
  | DirectPost
  | DirectPostJwt
  | Unsupported (mode : String)
deriving Repr, DecidableEq

/-- The decoded authorization request object (external `openid4vp` crate); the
embedding keeps the two pieces `holder.rs` reads: the claimed client identifier
and the response mode. -/
structure AuthorizationRequestObject where
  client_id : String
  response_mode : ResponseMode
deriving Repr, DecidableEq

/-- Wallet metadata: what the holder supports. The embedding keeps the two parts
`Holder::metadata` manipulates: supported claim formats (with their algorithm
values) and supported client-id schemes. -/
structure WalletMetadata where
  vp_formats_supported : List (String × List String)
  client_id_schemes_supported : List String
deriving Repr, DecidableEq

/-- Modelled from the spec: the static OpenID4VP wallet metadata value provided by
the external `openid4vp` crate (`WalletMetadata::openid4vp_scheme_static`). Its
concrete contents are out of scope for this repository; the embedding uses a
fixed base value. -/
def WalletMetadata.openid4vp_scheme_static : WalletMetadata :=
  { vp_formats_supported := [], client_id_schemes_supported := [] }

/-- Modelled from the spec: `add_client_id_schemes_supported` of the external
`openid4vp` crate appends a supported client-id scheme (fallible in its
signature, which `Holder::metadata` maps to `MetadataInitialization`). -/
def WalletMetadata.add_client_id_schemes_supported
    (m : WalletMetadata) (scheme : String) : Except String WalletMetadata :=
  .ok { m with client_id_schemes_supported := m.client_id_schemes_supported ++ [scheme] }

/-- The error type `OID4VPError` as used by `holder.rs` (its defining module
`error.rs` is not under src; the variants are those constructed in `holder.rs`
and the taxonomy of the spec, plus `CredentialStore` for the store error
propagated by the question-mark operator on `all_entries`, and the two
validation errors of `create_permission_response` modelled from the spec). -/
inductive OID4VPError where
  | HttpClientInitialization (e : String)
  | MetadataInitialization (e : String)
  | RequestValidation (e : String)
  | UnsupportedResponseMode (mode : String)
  | PresentationDefinitionResolution (e : String)
  | ResponseSubmission (e : String)
  | CredentialStore (e : String)
  | EmptyCredentialSelection
  | SelectedCredentialNotInCandidateList
deriving Repr, DecidableEq

/-- A stored credential of the VDC collection, carrying the outcome of
`try_into_parsed` on it. -/
structure Credential where
  parse_result : Except String ParsedCredential

/-- `Credential::try_into_parsed`: converting a stored credential into a parsed one. -/
def Credential.try_into_parsed (c : Credential) : Except String ParsedCredential :=
  c.parse_result

/-- The VDC collection interface consumed by `holder.rs`:
`all_entries` lists the identifiers of stored credentials (fallible),
`get` retrieves a stored credential by identifier (fallible, optional). -/
structure VdcCollection where
  all_entries : Except String (List StoreId)
  get : StoreId → Except String (Option Credential)

/-- The side effects of one pipeline run that the claims talk about:
a presentation-definition fetch, a consultation of the credential store,
the computation of the candidate list, and the examination of one candidate
credential by the matcher. -/
inductive Event where
  | presentation_definition_fetch
  | store_consulted
  | candidate_list_computed
  | credential_examined (c : ParsedCredential)
deriving Repr, DecidableEq

/-- The `Holder` struct of `holder.rs`: an optional VDC collection, wallet
metadata, the HTTP client (abstracted to a numeric handle; the embedding never
reads it, mirroring that matching is network-free), the list of trusted DIDs,
and the optional list of provided credentials. -/
structure Holder where
  vdc_collection : Option VdcCollection
  metadata : WalletMetadata
  client : Nat
  trusted_dids : List String
  provided_credentials : Option (List ParsedCredential)

/-- `Holder::metadata()`: build the static wallet metadata, inserting support for
the VCDM2 SD JWT format and the DID client-id scheme. -/
def Holder.metadata_static : Except OID4VPError WalletMetadata :=
  let metadata := WalletMetadata.openid4vp_scheme_static
  let metadata :=
    { metadata with
      vp_formats_supported :=
        metadata.vp_formats_supported ++ [(("vcdm2_sd_jwt"), [("ES256")])] }
  match metadata.add_client_id_schemes_supported ("did") with
  | .error e => .error (.MetadataInitialization e)
  | .ok m => .ok m

/-- `Holder::new`: store-backed construction. The outcome of
`ReqwestClient::new()` is supplied by the environment as `client_new`. -/
def Holder.new (client_new : Except String Nat) (vdc_collection : VdcCollection)
    (trusted_dids : List String) : Except OID4VPError Holder :=
  match client_new with
  | .error e => .error (.HttpClientInitialization e)
  | .ok client =>
    match Holder.metadata_static with
    | .error err => .error err
    | .ok m =>
      .ok { vdc_collection := some vdc_collection, metadata := m, client := client,
            trusted_dids := trusted_dids, provided_credentials := none }

/-- `Holder::new_with_credentials`: construction from an explicit credential list
instead of a VDC collection. -/
def Holder.new_with_credentials (client_new : Except String Nat)
    (provided_credentials : List ParsedCredential)
    (trusted_dids : List String) : Except OID4VPError Holder :=
  match client_new with
  | .error e => .error (.HttpClientInitialization e)
  | .ok client =>
    match Holder.metadata_static with
    | .error err => .error err
    | .ok m =>
      .ok { vdc_collection := none, metadata := m, client := client,
            trusted_dids := trusted_dids, provided_credentials := some provided_credentials }

/-- Modelled from the spec: satisfaction of one input descriptor (the defining
module of `check_presentation_definition` is not under src). A credential
satisfies a descriptor when its format is among the accepted formats of the
descriptor and every required field-path constraint can be resolved against
the claims of the credential. -/
def ParsedCredential.satisfies_descriptor (c : ParsedCredential) (desc : InputDescriptor) : Bool :=
  desc.formats.contains c.format && desc.fields.all (fun f => c.claims.contains f)

/-- Modelled from the spec: `ParsedCredential::check_presentation_definition` —
a credential satisfies the definition when it satisfies at least one input
descriptor; a credential satisfying several descriptors counts once. -/
def ParsedCredential.check_presentation_definition
    (c : ParsedCredential) (definition : PresentationDefinition) : Bool :=
  definition.input_descriptors.any (fun desc => c.satisfies_descriptor desc)

/-- Retrieval and parsing of one store entry, as in the filter-map of
`search_credentials_vs_presentation_definition`:
`get(id).ok().flatten().and_then(try_into_parsed().ok())`. -/
def VdcCollection.parse_entry (vdc : VdcCollection) (id : StoreId) : Option ParsedCredential :=
  ((vdc.get id).toOption.join).bind (fun cred => cred.try_into_parsed.toOption)

/-- All store entries that retrieve and parse successfully, in store order;
entries whose retrieval or parsing fails are skipped. -/
def VdcCollection.parsed_entries (vdc : VdcCollection) (ids : List StoreId) : List ParsedCredential :=
  ids.filterMap (fun id => vdc.parse_entry id)

/-- The candidate pool of `search_credentials_vs_presentation_definition`:
the provided credential list when one was given at construction, otherwise
every entry of the VDC collection that retrieves and parses (the store listing
itself is fallible and its error propagates). The trace records whether the
store was consulted. -/
def Holder.candidate_pool (h : Holder) :
    Except OID4VPError (List ParsedCredential) × List Event :=
  match h.provided_credentials with
  | some credentials => (.ok credentials, [])
  | none =>
    match h.vdc_collection with
    | none => (.ok [], [])
    | some vdc =>
      match vdc.all_entries with
      | .error e => (.error (.CredentialStore e), [.store_consulted])
      | .ok ids => (.ok (vdc.parsed_entries ids), [.store_consulted])

/-- `Holder::search_credentials_vs_presentation_definition`: filter the candidate
pool down to the credentials whose `check_presentation_definition` holds. The
trace additionally records the computation of the candidate list and the
examination of each candidate. -/
def Holder.search_credentials_vs_presentation_definition (h : Holder)
    (definition : PresentationDefinition) :
    Except OID4VPError (List ParsedCredential) × List Event :=
  match h.candidate_pool with
  | (.error e, tr) => (.error e, tr)
  | (.ok credentials, tr) =>
    (.ok (credentials.filter (fun cred => cred.check_presentation_definition definition)),
     tr ++ [.candidate_list_computed] ++ credentials.map (fun c => .credential_examined c))

/-- Modelled from the spec: a `PermissionRequest` (its defining module is not
under src) packages the presentation definition, the full list of matched
candidate credentials, and the original authorization request. -/
structure PermissionRequest where
  definition : PresentationDefinition
  credentials : List ParsedCredential
  request : AuthorizationRequestObject
deriving Repr, DecidableEq

/-- Modelled from the spec: `PermissionRequest::new` is pure packaging. -/
def PermissionRequest.new (definition : PresentationDefinition)
    (credentials : List ParsedCredential)
    (request : AuthorizationRequestObject) : PermissionRequest :=
  { definition := definition, credentials := credentials, request := request }

/-- Modelled from the spec: a `PermissionResponse` holds the definition, the
selected credentials, and the authorization request retained for submission. -/
structure PermissionResponse where
  presentation_definition : PresentationDefinition
  selected_credentials : List ParsedCredential
  authorization_request : AuthorizationRequestObject
deriving Repr, DecidableEq

/-- Modelled from the spec: `PermissionRequest::requested_fields` — the ordered
sequence of field descriptors of the definition that concern the given
credential: the required fields of every input descriptor the credential
satisfies, in definition order. -/
def PermissionRequest.requested_fields (pr : PermissionRequest)
    (credential : ParsedCredential) : List String :=
  (pr.definition.input_descriptors.filter
      (fun desc => credential.satisfies_descriptor desc)).flatMap
    (fun desc => desc.fields)

/-- Modelled from the spec: `PermissionRequest::create_permission_response`
validates that the selected credentials are a non-empty subset of the candidate
list of the permission request, and otherwise fails with a validation error.
Cryptographic signing is deferred to submission. -/
def PermissionRequest.create_permission_response (pr : PermissionRequest)
    (selected_credentials : List ParsedCredential) :
    Except OID4VPError PermissionResponse :=
  if selected_credentials.isEmpty then
    .error .EmptyCredentialSelection
  else if selected_credentials.all (fun c => pr.credentials.contains c) then
    .ok { presentation_definition := pr.definition,
          selected_credentials := selected_credentials,
          authorization_request := pr.request }
  else
    .error .SelectedCredentialNotInCandidateList

/-- The environment of one pipeline run: the outcome of `validate_request` on a
given URL (external `openid4vp` wallet trait plus the `RequestVerifier`
implementation) and the outcome of `resolve_presentation_definition` on a given
request (a network fetch when the definition is not inline). -/
structure World where
  validate_request : Url → Except String AuthorizationRequestObject
  resolve_presentation_definition :
    AuthorizationRequestObject → Except String PresentationDefinition

/-- `Holder::permission_request`: resolve the presentation definition (one fetch
event), search the credentials against it, and package the result. -/
def Holder.permission_request (h : Holder) (w : World)
    (request : AuthorizationRequestObject) :
    Except OID4VPError PermissionRequest × List Event :=
  match w.resolve_presentation_definition request with
  | .error e => (.error (.PresentationDefinitionResolution e), [.presentation_definition_fetch])
  | .ok presentation_definition =>
    match h.search_credentials_vs_presentation_definition presentation_definition with
    | (.error e, tr) => (.error e, .presentation_definition_fetch :: tr)
    | (.ok credentials, tr) =>
      (.ok (PermissionRequest.new presentation_definition credentials request),
       .presentation_definition_fetch :: tr)

/-- `Holder::authorization_request`: validate the request; on failure return a
`RequestValidation` error; otherwise dispatch on the response mode — the
supported direct-post modes proceed to `permission_request`, an unsupported
mode is a hard stop with `UnsupportedResponseMode`. -/
def Holder.authorization_request (h : Holder) (w : World) (url : Url) :
    Except OID4VPError PermissionRequest × List Event :=
  match w.validate_request url with
  | .error e => (.error (.RequestValidation e), [])
  | .ok request =>
    match request.response_mode with
    | .DirectPost => h.permission_request w request
    | .DirectPostJwt => h.permission_request w request
    | .Unsupported mode => (.error (.UnsupportedResponseMode mode), [])

/-- The argument record of one call to `verify_with_resolver` (external
`openid4vp` crate) as assembled by the `RequestVerifier::did` implementation
for `Holder`: the wallet metadata, the decoded request, the request JWT, and
the optional allow-list of DIDs passed as its trusted-DIDs argument. -/
structure VerifyWithResolverCall where
  wallet_metadata : WalletMetadata
  decoded_request : AuthorizationRequestObject
  request_jwt : String
  allowed_dids : Option (List String)
deriving Repr, DecidableEq

/-- The call to `verify_with_resolver` that `RequestVerifier::did` for `Holder`
performs: it passes the metadata of the holder, the decoded request, the
request JWT, and the singleton allow-list holding the claimed client
identifier of the request. -/
def Holder.did_verify_call (h : Holder) (decoded_request : AuthorizationRequestObject)
    (request_jwt : String) : VerifyWithResolverCall :=
  let client_id := decoded_request.client_id
  { wallet_metadata := h.metadata, decoded_request := decoded_request,
    request_jwt := request_jwt, allowed_dids := some [client_id] }

/-- `RequestVerifier::did` for `Holder`: delegate to `verify_with_resolver`
(supplied by the environment as a function of the assembled call record) on
the call assembled by `did_verify_call`. -/
def Holder.did (h : Holder) (decoded_request : AuthorizationRequestObject)
    (request_jwt : String)
    (verify_with_resolver : VerifyWithResolverCall → Except String Unit) :
    Except String Unit :=
  verify_with_resolver (h.did_verify_call decoded_request request_jwt)

/-! Concrete sample values, used to instantiate the theorems below on closed
inputs. They mirror the end-to-end scenario of the spec: one credential of
format X carrying the claims name and birthdate, one definition whose single
descriptor requires format X and the claim name. -/

/-- A sample credential of format X with claims name and birthdate. -/
def sampleCredA : ParsedCredential :=
  { format := ("X"), claims := [("name"), ("birthdate")] }

/-- A sample credential of format Y with no claims; it does not match the sample definition. -/
def sampleCredB : ParsedCredential :=
  { format := ("Y"), claims := [] }

/-- A sample input descriptor requiring format X and the claim name. -/
def sampleDescriptor : InputDescriptor :=
  { id := ("d1"), formats := [("X")], fields := [("name")] }

/-- A sample presentation definition with the single sample descriptor. -/
def sampleDefinition : PresentationDefinition :=
  { input_descriptors := [sampleDescriptor] }

/-- A sample decoded authorization request using the direct-post response mode. -/
def sampleRequest : AuthorizationRequestObject :=
  { client_id := ("did:web:verifier"), response_mode := .DirectPost }

/-- A sample environment: validation succeeds with the sample request and the
presentation definition resolves to the sample definition. -/
def sampleWorld : World :=
  { validate_request := fun _ => .ok sampleRequest,
    resolve_presentation_definition := fun _ => .ok sampleDefinition }

/-- The metadata value `Holder::metadata()` evaluates to in this embedding. -/
def sampleMetadata : WalletMetadata :=
  { vp_formats_supported := [(("vcdm2_sd_jwt"), [("ES256")])],
    client_id_schemes_supported := [("did")] }

/-- A holder constructed with an explicit credential list holding the two sample credentials. -/
def sampleHolderProvided : Holder :=
  { vdc_collection := none, metadata := sampleMetadata, client := 0,
    trusted_dids := [], provided_credentials := some [sampleCredA, sampleCredB] }

/-- A stored credential that parses to the sample credential of format X. -/
def sampleStoredGood : Credential := { parse_result := .ok sampleCredA }

/-- A stored credential whose parsing fails. -/
def sampleStoredBad : Credential := { parse_result := .error ("corrupt") }

/-- A sample VDC collection with two entries: entry a fails to parse, entry b
parses to the sample credential of format X. -/
def sampleVdc : VdcCollection :=
  { all_entries := .ok [("a"), ("b")],
    get := fun id =>
      if id = ("a") then .ok (some sampleStoredBad) else .ok (some sampleStoredGood) }

/-- A store-backed holder over the sample VDC collection. -/
def sampleHolderFromStore : Holder :=
  { vdc_collection := some sampleVdc, metadata := sampleMetadata, client := 0,
    trusted_dids := [], provided_credentials := none }

/-! Helper lemmas shared by the claim theorems. -/

/-- The candidate pool of a holder carrying an explicit credential list is that
list, with no store consultation. -/
theorem Holder.candidate_pool_provided (h : Holder) (creds : List ParsedCredential)
    (hp : h.provided_credentials = some creds) :
    h.candidate_pool = (.ok creds, []) := by
  unfold Holder.candidate_pool
  rw [hp]

/-- The candidate pool of a store-backed holder whose store listing succeeds is
the list of store entries that retrieve and parse, with one store consultation. -/
theorem Holder.candidate_pool_store (h : Holder) (vdc : VdcCollection) (ids : List StoreId)
    (hp : h.provided_credentials = none) (hv : h.vdc_collection = some vdc)
    (he : vdc.all_entries = .ok ids) :
    h.candidate_pool = (.ok (vdc.parsed_entries ids), [.store_consulted]) := by
  unfold Holder.candidate_pool
  rw [hp, hv]
  dsimp only
  rw [he]

/-- When the candidate pool succeeds, the search filters it by
`check_presentation_definition` and examines each candidate. -/
theorem Holder.search_eq_of_pool (h : Holder) (d : PresentationDefinition)
    (pool : List ParsedCredential) (tr : List Event)
    (hp : h.candidate_pool = (.ok pool, tr)) :
    h.search_credentials_vs_presentation_definition d =
      (.ok (pool.filter (fun c => c.check_presentation_definition d)),
       tr ++ [.candidate_list_computed] ++ pool.map (fun c => .credential_examined c)) := by
  unfold Holder.search_credentials_vs_presentation_definition
  rw [hp]

/-- Claim C1: when request validation fails, `Holder::authorization_request`
returns a `RequestValidation` error and performs nothing else: the event trace
is empty, so the presentation definition is not resolved, no candidate list is
computed, and no credential is examined. -/
theorem C1_request_validation_hard_stop (h : Holder) (w : World) (url : Url) (e : String)
    (hv : w.validate_request url = .error e) :
    h.authorization_request w url = (.error (.RequestValidation e), []) := by
  unfold Holder.authorization_request
  rw [hv]

/-- Witness for C1 at a concrete holder, environment and URL. -/
theorem C1_request_validation_hard_stop_witness :
    (World.mk (fun _ => .error ("bad")) (fun _ => .ok sampleDefinition)).validate_request
        ("openid4vp://authorize") = .error ("bad") ∧
    sampleHolderProvided.authorization_request
        (World.mk (fun _ => .error ("bad")) (fun _ => .ok sampleDefinition))
        ("openid4vp://authorize")
      = (.error (.RequestValidation ("bad")), []) :=
  ⟨rfl, C1_request_validation_hard_stop sampleHolderProvided _ _ _ rfl⟩

/-- Claim C6: when a validated request negotiates a response mode the wallet
does not implement, `Holder::authorization_request` fails with
`UnsupportedResponseMode` carrying that mode, and the empty event trace shows
that no presentation-definition fetch and no credential matching occurs. -/
theorem C6_unsupported_response_mode (h : Holder) (w : World) (url : Url)
    (request : AuthorizationRequestObject) (mode : String)
    (hv : w.validate_request url = .ok request)
    (hm : request.response_mode = .Unsupported mode) :
    h.authorization_request w url = (.error (.UnsupportedResponseMode mode), []) := by
  unfold Holder.authorization_request
  rw [hv]
  dsimp only
  rw [hm]

/-- Witness for C6 at a concrete holder, request and environment. -/
theorem C6_unsupported_response_mode_witness :
    (World.mk
        (fun _ => .ok { client_id := ("did:web:verifier"),
                        response_mode := .Unsupported ("fragment") })
        (fun _ => .ok sampleDefinition)).validate_request ("openid4vp://authorize")
      = .ok { client_id := ("did:web:verifier"),
              response_mode := .Unsupported ("fragment") } ∧
    sampleHolderProvided.authorization_request
        (World.mk
          (fun _ => .ok { client_id := ("did:web:verifier"),
                          response_mode := .Unsupported ("fragment") })
          (fun _ => .ok sampleDefinition))
        ("openid4vp://authorize")
      = (.error (.UnsupportedResponseMode ("fragment")), []) :=
  ⟨rfl, C6_unsupported_response_mode sampleHolderProvided _ _ _ ("fragment") rfl rfl⟩

/-- Claim C7: for every DID-scheme request, the verification performed by the
holder passes `verify_with_resolver` an allow-list that is exactly the
singleton of the declared client identifier of the request; in particular the
declared identifier itself is in the allow-list. -/
theorem C7_did_allow_list (h : Holder) (decoded_request : AuthorizationRequestObject)
    (request_jwt : String) :
    (h.did_verify_call decoded_request request_jwt).allowed_dids
        = some [decoded_request.client_id] ∧
    decoded_request.client_id
        ∈ ((h.did_verify_call decoded_request request_jwt).allowed_dids.getD []) :=
  ⟨rfl, by simp [Holder.did_verify_call]⟩

/-- Claim C10: the trusted-DIDs list stored in the holder is never read during
DID-scheme verification: changing it changes neither the verification outcome
nor the assembled call, and the allow-list passed to the signature check is
exactly the singleton of the claimed client identifier of the request. -/
theorem C10_trusted_dids_unused (h : Holder) (other_dids : List String)
    (decoded_request : AuthorizationRequestObject) (request_jwt : String)
    (verify_with_resolver : VerifyWithResolverCall → Except String Unit) :
    Holder.did { h with trusted_dids := other_dids }
        decoded_request request_jwt verify_with_resolver
      = h.did decoded_request request_jwt verify_with_resolver ∧
    Holder.did_verify_call { h with trusted_dids := other_dids }
        decoded_request request_jwt
      = h.did_verify_call decoded_request request_jwt ∧
    (h.did_verify_call decoded_request request_jwt).allowed_dids
      = some [decoded_request.client_id] :=
  ⟨rfl, rfl, rfl⟩

/-- Claim C3: the credential list placed in the returned `PermissionRequest` is
exactly the set of candidates whose `check_presentation_definition` holds for
the resolved definition: every listed credential satisfies the definition at
construction time and no satisfying candidate is omitted. -/
theorem C3_matched_exactly (h : Holder) (w : World) (request : AuthorizationRequestObject)
    (d : PresentationDefinition) (pool : List ParsedCredential)
    (pr : PermissionRequest) (tr ptr : List Event)
    (hres : w.resolve_presentation_definition request = .ok d)
    (hpool : h.candidate_pool = (.ok pool, ptr))
    (hpr : h.permission_request w request = (.ok pr, tr)) :
    pr.definition = d ∧
    ∀ c : ParsedCredential,
      c ∈ pr.credentials ↔ (c ∈ pool ∧ c.check_presentation_definition d = true) := by
  have hs := Holder.search_eq_of_pool h d pool ptr hpool
  unfold Holder.permission_request at hpr
  rw [hres] at hpr
  dsimp only at hpr
  rw [hs] at hpr
  have hfst := congrArg Prod.fst hpr
  simp only [Except.ok.injEq] at hfst
  subst hfst
  refine ⟨rfl, ?_⟩
  intro c
  simp [PermissionRequest.new, List.mem_filter]

/-- Witness for C3: the sample holder carries one matching and one
non-matching credential; the permission request lists exactly the match. -/
theorem C3_matched_exactly_witness :
    (PermissionRequest.new sampleDefinition [sampleCredA] sampleRequest).definition
        = sampleDefinition ∧
    (sampleCredA ∈ (PermissionRequest.new sampleDefinition [sampleCredA] sampleRequest).credentials
      ↔ (sampleCredA ∈ [sampleCredA, sampleCredB] ∧
         sampleCredA.check_presentation_definition sampleDefinition = true)) :=
  ⟨(C3_matched_exactly sampleHolderProvided sampleWorld sampleRequest sampleDefinition
      [sampleCredA, sampleCredB]
      (PermissionRequest.new sampleDefinition [sampleCredA] sampleRequest)
      [.presentation_definition_fetch, .candidate_list_computed,
       .credential_examined sampleCredA, .credential_examined sampleCredB]
      [] rfl rfl rfl).1,
   (C3_matched_exactly sampleHolderProvided sampleWorld sampleRequest sampleDefinition
      [sampleCredA, sampleCredB]
      (PermissionRequest.new sampleDefinition [sampleCredA] sampleRequest)
      [.presentation_definition_fetch, .candidate_list_computed,
       .credential_examined sampleCredA, .credential_examined sampleCredB]
      [] rfl rfl rfl).2 sampleCredA⟩

/-- Claim C4: the candidate source is fixed at construction: a holder built by
`new_with_credentials` carries the explicit list and no store, and for any
holder carrying an explicit list that list is the exclusive candidate pool
(the store is never consulted); a holder built by `new` carries the store and
no explicit list, and every store entry is enumerated and tested. -/
theorem C4_candidate_source :
    (∀ (client_new : Except String Nat) (creds : List ParsedCredential)
       (dids : List String) (h : Holder),
      Holder.new_with_credentials client_new creds dids = .ok h →
      h.provided_credentials = some creds ∧ h.vdc_collection = none) ∧
    (∀ (client_new : Except String Nat) (vdc : VdcCollection)
       (dids : List String) (h : Holder),
      Holder.new client_new vdc dids = .ok h →
      h.provided_credentials = none ∧ h.vdc_collection = some vdc) ∧
    (∀ (h : Holder) (creds : List ParsedCredential) (d : PresentationDefinition),
      h.provided_credentials = some creds →
      h.search_credentials_vs_presentation_definition d =
        (.ok (creds.filter (fun c => c.check_presentation_definition d)),
         [.candidate_list_computed] ++ creds.map (fun c => .credential_examined c)) ∧
      Event.store_consulted ∉ (h.search_credentials_vs_presentation_definition d).2) ∧
    (∀ (h : Holder) (vdc : VdcCollection) (ids : List StoreId) (d : PresentationDefinition),
      h.provided_credentials = none → h.vdc_collection = some vdc →
      vdc.all_entries = .ok ids →
      h.search_credentials_vs_presentation_definition d =
        (.ok ((vdc.parsed_entries ids).filter (fun c => c.check_presentation_definition d)),
         [.store_consulted, .candidate_list_computed]
           ++ (vdc.parsed_entries ids).map (fun c => .credential_examined c))) := by
  refine ⟨?_, ?_, ?_, ?_⟩
  · intro client_new creds dids h hcon
    cases client_new with
    | error e => simp [Holder.new_with_credentials] at hcon
    | ok cl =>
      simp only [Holder.new_with_credentials, Holder.metadata_static,
        WalletMetadata.add_client_id_schemes_supported, Except.ok.injEq] at hcon
      subst hcon
      exact ⟨rfl, rfl⟩
  · intro client_new vdc dids h hcon
    cases client_new with
    | error e => simp [Holder.new] at hcon
    | ok cl =>
      simp only [Holder.new, Holder.metadata_static,
        WalletMetadata.add_client_id_schemes_supported, Except.ok.injEq] at hcon
      subst hcon
      exact ⟨rfl, rfl⟩
  · intro h creds d hp
    have hs := Holder.search_eq_of_pool h d creds []
      (Holder.candidate_pool_provided h creds hp)
    refine ⟨by simpa using hs, ?_⟩
    rw [hs]
    simp [List.mem_map]
  · intro h vdc ids d hp hv he
    have hs := Holder.search_eq_of_pool h d (vdc.parsed_entries ids) [.store_consulted]
      (Holder.candidate_pool_store h vdc ids hp hv he)
    simpa using hs

/-- Witness for C4 on concrete holders: the explicit-list holder matches from
its list without store consultation; the store-backed holder enumerates its
two entries, of which exactly one parses and matches. -/
theorem C4_candidate_source_witness :
    ((Holder.new_with_credentials (.ok 0) [sampleCredA] []).map
        (fun h => h.provided_credentials) = .ok (some [sampleCredA])) ∧
    ((Holder.new (.ok 0) sampleVdc []).map
        (fun h => h.vdc_collection.isSome) = .ok true) ∧
    sampleHolderProvided.search_credentials_vs_presentation_definition sampleDefinition =
      (.ok [sampleCredA],
       [.candidate_list_computed, .credential_examined sampleCredA,
        .credential_examined sampleCredB]) ∧
    Event.store_consulted
      ∉ (sampleHolderProvided.search_credentials_vs_presentation_definition
          sampleDefinition).2 ∧
    sampleHolderFromStore.search_credentials_vs_presentation_definition sampleDefinition =
      (.ok [sampleCredA],
       [.store_consulted, .candidate_list_computed, .credential_examined sampleCredA]) := by
  have h1 := (C4_candidate_source.2.2.1 sampleHolderProvided [sampleCredA, sampleCredB]
    sampleDefinition rfl)
  have h2 := C4_candidate_source.2.2.2 sampleHolderFromStore sampleVdc [("a"), ("b")]
    sampleDefinition rfl rfl rfl
  exact ⟨rfl, rfl, h1.1, h1.2, h2⟩

/-- Claim C5: for a store-backed holder, store entries whose retrieval or
parsing fails are silently skipped and cause no error; in particular, with one
failing entry and one entry that parses and matches, the search succeeds and
returns exactly the parsing credential. -/
theorem C5_store_failures_skipped :
    (∀ (h : Holder) (vdc : VdcCollection) (ids : List StoreId) (d : PresentationDefinition),
      h.provided_credentials = none → h.vdc_collection = some vdc →
      vdc.all_entries = .ok ids →
      (h.search_credentials_vs_presentation_definition d).1 =
        .ok ((ids.filterMap (fun id => vdc.parse_entry id)).filter
          (fun c => c.check_presentation_definition d))) ∧
    (∀ (h : Holder) (vdc : VdcCollection) (i j : StoreId) (c : ParsedCredential)
       (d : PresentationDefinition),
      h.provided_credentials = none → h.vdc_collection = some vdc →
      vdc.all_entries = .ok [i, j] →
      vdc.parse_entry i = none → vdc.parse_entry j = some c →
      c.check_presentation_definition d = true →
      (h.search_credentials_vs_presentation_definition d).1 = .ok [c]) := by
  constructor
  · intro h vdc ids d hp hv he
    have hs := Holder.search_eq_of_pool h d (vdc.parsed_entries ids) [.store_consulted]
      (Holder.candidate_pool_store h vdc ids hp hv he)
    rw [hs]
    rfl
  · intro h vdc i j c d hp hv he hfail hgood hc
    have hpool : vdc.parsed_entries [i, j] = [c] := by
      simp [VdcCollection.parsed_entries, List.filterMap_cons, hfail, hgood]
    have hs := Holder.search_eq_of_pool h d (vdc.parsed_entries [i, j]) [.store_consulted]
      (Holder.candidate_pool_store h vdc [i, j] hp hv he)
    rw [hpool] at hs
    rw [hs]
    simp [List.filter_cons, hc]

/-- Witness for C5: in the sample store, entry a fails to parse, entry b
parses and matches; the search succeeds with exactly that one credential. -/
theorem C5_store_failures_skipped_witness :
    sampleVdc.parse_entry ("a") = none ∧
    sampleVdc.parse_entry ("b") = some sampleCredA ∧
    (sampleHolderFromStore.search_credentials_vs_presentation_definition
        sampleDefinition).1 = .ok [sampleCredA] :=
  ⟨rfl, rfl,
   C5_store_failures_skipped.2 sampleHolderFromStore sampleVdc ("a") ("b") sampleCredA
     sampleDefinition rfl rfl rfl rfl rfl rfl⟩

/-- Claim C8: matching is deterministic and network-free: two holders agreeing
on their candidate source (provided credentials and store) produce identical
search results for the same definition, whatever their HTTP client, metadata
or trusted DIDs; and membership of an individual credential in the result
depends only on the pair of that credential and the definition, via
`check_presentation_definition`, given the candidate pool. -/
theorem C8_match_deterministic (g h : Holder) (d : PresentationDefinition)
    (hp : g.provided_credentials = h.provided_credentials)
    (hv : g.vdc_collection = h.vdc_collection) :
    g.search_credentials_vs_presentation_definition d =
      h.search_credentials_vs_presentation_definition d ∧
    (∀ (c : ParsedCredential) (pool res : List ParsedCredential) (ptr rtr : List Event),
      g.candidate_pool = (.ok pool, ptr) →
      g.search_credentials_vs_presentation_definition d = (.ok res, rtr) →
      (c ∈ res ↔ (c ∈ pool ∧ c.check_presentation_definition d = true))) := by
  constructor
  · unfold Holder.search_credentials_vs_presentation_definition Holder.candidate_pool
    rw [hp, hv]
  · intro c pool res ptr rtr hpool hs
    rw [Holder.search_eq_of_pool g d pool ptr hpool] at hs
    have hfst := congrArg Prod.fst hs
    simp only [Except.ok.injEq] at hfst
    subst hfst
    simp [List.mem_filter]

/-- Witness for C8: two holders sharing the sample credential list but
differing in client handle and trusted DIDs produce the same matches, and the
sample credential is in the result exactly because it is a candidate that
checks against the definition. -/
theorem C8_match_deterministic_witness :
    sampleHolderProvided.search_credentials_vs_presentation_definition sampleDefinition =
      (Holder.mk none sampleMetadata 1 [("did:web:other")]
        (some [sampleCredA, sampleCredB])).search_credentials_vs_presentation_definition
        sampleDefinition ∧
    (sampleCredA ∈ [sampleCredA] ↔
      (sampleCredA ∈ [sampleCredA, sampleCredB] ∧
       sampleCredA.check_presentation_definition sampleDefinition = true)) :=
  ⟨(C8_match_deterministic sampleHolderProvided
      (Holder.mk none sampleMetadata 1 [("did:web:other")]
        (some [sampleCredA, sampleCredB])) sampleDefinition rfl rfl).1,
   (C8_match_deterministic sampleHolderProvided
      (Holder.mk none sampleMetadata 1 [("did:web:other")]
        (some [sampleCredA, sampleCredB])) sampleDefinition rfl rfl).2
     sampleCredA [sampleCredA, sampleCredB] [sampleCredA] []
     [.candidate_list_computed, .credential_examined sampleCredA,
      .credential_examined sampleCredB] rfl rfl⟩

/-- A sample permission request packaging the sample definition, the matching
sample credential, and the sample request. -/
def samplePermissionRequest : PermissionRequest :=
  PermissionRequest.new sampleDefinition [sampleCredA] sampleRequest

/-- Claim C2: creating a permission response validates that the selection is a
non-empty subset of the candidate list of the permission request: an empty
selection fails, a selection containing a credential outside the candidate
list fails, and a non-empty selection inside the candidate list succeeds and
carries the selection. -/
theorem C2_create_response_validation (pr : PermissionRequest)
    (selected : List ParsedCredential) :
    (selected = [] →
      pr.create_permission_response selected = .error .EmptyCredentialSelection) ∧
    ((∃ c ∈ selected, c ∉ pr.credentials) →
      pr.create_permission_response selected
        = .error .SelectedCredentialNotInCandidateList) ∧
    (selected ≠ [] → (∀ c ∈ selected, c ∈ pr.credentials) →
      pr.create_permission_response selected
        = .ok { presentation_definition := pr.definition,
                selected_credentials := selected,
                authorization_request := pr.request }) := by
  refine ⟨?_, ?_, ?_⟩
  · intro hsel
    subst hsel
    rfl
  · rintro ⟨c, hc, hnc⟩
    have hne : selected.isEmpty = false := by
      cases selected with
      | nil => cases hc
      | cons a l => rfl
    have hall : (selected.all (fun c => pr.credentials.contains c)) = false := by
      rw [Bool.eq_false_iff]
      intro hcontra
      rw [List.all_eq_true] at hcontra
      exact hnc (by simpa using hcontra c hc)
    unfold PermissionRequest.create_permission_response
    simp only [hne, hall, Bool.false_eq_true, if_false]
  · intro hne hsub
    have hne2 : selected.isEmpty = false := by
      cases selected with
      | nil => exact absurd rfl hne
      | cons a l => rfl
    have hall : (selected.all (fun c => pr.credentials.contains c)) = true := by
      rw [List.all_eq_true]
      intro c hc
      simpa using hsub c hc
    unfold PermissionRequest.create_permission_response
    simp only [hne2, hall, Bool.false_eq_true, if_false, if_true]

/-- Witness for C2 on the sample permission request: the empty selection fails,
a selection with a non-candidate credential fails, and selecting the candidate
itself succeeds. -/
theorem C2_create_response_validation_witness :
    samplePermissionRequest.create_permission_response []
      = .error .EmptyCredentialSelection ∧
    samplePermissionRequest.create_permission_response [sampleCredB]
      = .error .SelectedCredentialNotInCandidateList ∧
    samplePermissionRequest.create_permission_response [sampleCredA]
      = .ok { presentation_definition := sampleDefinition,
              selected_credentials := [sampleCredA],
              authorization_request := sampleRequest } :=
  ⟨(C2_create_response_validation samplePermissionRequest []).1 rfl,
   (C2_create_response_validation samplePermissionRequest [sampleCredB]).2.1
     ⟨sampleCredB, by simp, by decide⟩,
   (C2_create_response_validation samplePermissionRequest [sampleCredA]).2.2
     (by simp) (by simp [samplePermissionRequest, PermissionRequest.new])⟩

/-- A descriptor constraining only the credential format, with no required
field-path constraints. -/
def formatOnlyDescriptor : InputDescriptor :=
  { id := ("d0"), formats := [("X")], fields := [] }

/-- A presentation definition whose single descriptor has no field constraints. -/
def formatOnlyDefinition : PresentationDefinition :=
  { input_descriptors := [formatOnlyDescriptor] }

/-- The permission request built for the format-only definition, listing the
matching sample credential. -/
def formatOnlyPermissionRequest : PermissionRequest :=
  PermissionRequest.new formatOnlyDefinition [sampleCredA] sampleRequest

/-- Counterexample to claim C9: a definition whose single descriptor accepts
format X and requires no fields is matched by the sample credential (which
therefore appears in the credential list of the permission request), yet the
requested fields for it are the empty sequence. -/
theorem C9_counterexample_empty_fields :
    sampleCredA.check_presentation_definition formatOnlyDefinition = true ∧
    sampleCredA ∈ formatOnlyPermissionRequest.credentials ∧
    formatOnlyPermissionRequest.requested_fields sampleCredA = [] :=
  ⟨rfl, by simp [formatOnlyPermissionRequest, PermissionRequest.new], rfl⟩

/-- Claim C9 as amended: if a credential satisfies some input descriptor of the
definition of the permission request and that descriptor carries at least one
required field, then the requested fields for that credential form a non-empty
sequence. -/
theorem C9_requested_fields_nonempty_amended (pr : PermissionRequest)
    (c : ParsedCredential) (desc : InputDescriptor)
    (hmem : desc ∈ pr.definition.input_descriptors)
    (hsat : c.satisfies_descriptor desc = true)
    (hfields : desc.fields ≠ []) :
    pr.requested_fields c ≠ [] := by
  unfold PermissionRequest.requested_fields
  obtain ⟨f, hf⟩ := List.exists_mem_of_ne_nil desc.fields hfields
  apply List.ne_nil_of_mem (a := f)
  rw [List.mem_flatMap]
  exact ⟨desc, List.mem_filter.mpr ⟨hmem, hsat⟩, hf⟩

/-- Witness for the amended C9: the sample descriptor requires the claim name,
so the requested fields for the matching sample credential are non-empty. -/
theorem C9_requested_fields_nonempty_amended_witness :
    samplePermissionRequest.requested_fields sampleCredA ≠ [] :=
  C9_requested_fields_nonempty_amended samplePermissionRequest sampleCredA
    sampleDescriptor
    (by simp [samplePermissionRequest, PermissionRequest.new, sampleDefinition])
    rfl
    (by simp [sampleDescriptor])

end MobileSdk
